import Mathlib

/-!
Shallow embedding of the AI-STUDY-ASSISTANT repository: the chunker
(app.py chunk_text), the Milvus vector-store adapter (vector_store.py,
class StudyMaterialsStore) and the orchestrator (agents.py, class
StudyAssistant).  The external engines (the embedded Milvus instance,
the OpenAI embedding and chat endpoints) are opaque collaborators, so
each engine call is modelled by an outcome oracle supplied per call
attempt.  Floating-point payloads (embedding vectors, distances) are
never inspected or combined by the repository code, only carried
through, so they are modelled by integer payloads with decidable
equality.
-/

namespace StudyAssistant

/-! ### app.py: chunk_text -/

/-- Python slice test: text at position p starts with the needle, that is
the comparison text with needle at p used by str.rfind. -/
def matchAt (t needle : List Char) (p : Nat) : Bool :=
  decide ((t.drop p).take needle.length = needle)

/-- Python text.rfind(needle, s, e): the greatest position p with s ≤ p,
p + needle.length ≤ e and a match at p; none models the -1 result. -/
def rfind (t needle : List Char) (s e : Nat) : Option Nat :=
  ((List.range' s (e - s)).filter
    (fun p => decide (p + needle.length ≤ e) && matchAt t needle p)).getLast?

/-- app.py chunk_text boundary scan: the for loop over the needle list
(double newline, period, question mark, exclamation mark) breaking at the
first needle whose rfind is not -1. -/
def boundaryPos (t : List Char) (s e : Nat) : Option Nat :=
  match rfind t ['\n', '\n'] s e with
  | some p => some p
  | none =>
    match rfind t ['.'] s e with
    | some p => some p
    | none =>
      match rfind t ['?'] s e with
      | some p => some p
      | none => rfind t ['!'] s e

/-- One window end of chunk_text: end = min(start + chunk_size, length),
then moved to just past the last boundary character found in the window,
when the window does not already reach the end of the text. -/
def chunkEnd (t : List Char) (cs s : Nat) : Nat :=
  if min (s + cs) t.length < t.length then
    match boundaryPos t s (min (s + cs) t.length) with
    | some p => p + 1
    | none => min (s + cs) t.length
  else min (s + cs) t.length

/-- Python start update: start = end - overlap if end - overlap > start
else end. -/
def nextStart (ov s e : Nat) : Nat :=
  if s < e - ov then e - ov else e

/-- Fuel-indexed while loop of chunk_text, producing the (start, end)
interval of every chunk; none models the Python loop still running past
the fuel bound. -/
def chunkAux (t : List Char) (cs ov : Nat) : Nat → Nat → Option (List (Nat × Nat))
  | 0, s => if s < t.length then none else some []
  | fuel+1, s =>
    if s < t.length then
      match chunkAux t cs ov fuel (nextStart ov s (chunkEnd t cs s)) with
      | some rest => some ((s, chunkEnd t cs s) :: rest)
      | none => none
    else some []

/-- Python slice text[start:end]. -/
def sliceChunk (t : List Char) (p : Nat × Nat) : List Char :=
  (t.drop p.1).take (p.2 - p.1)

/-- app.py chunk_text(text, chunk_size, overlap); the source defaults are
chunk_size = 1000 and overlap = 100.  The fuel t.length is enough
whenever the Python loop terminates at all, since the start index can
only move forward. -/
def chunk_text (t : List Char) (cs ov : Nat) : Option (List (List Char)) :=
  (chunkAux t cs ov t.length 0).map (List.map (sliceChunk t))

/-! ### vector_store.py: StudyMaterialsStore -/

/-- Python substring test sub in s. -/
def containsSub (s sub : String) : Bool :=
  decide (sub.toList <:+: s.toList)

/-- Python str.startswith. -/
def startswith (s p : String) : Bool :=
  decide (p.toList <+: s.toList)

/-- vector_store.py session-scoped test used in _connect:
the substring test of tmp in self.uri, or self.uri.startswith("./"). -/
def sessionScoped (uri : String) : Bool :=
  containsSub uri "tmp" || startswith uri "./"

/-- Shape of every regenerated location in _connect:
os.path.join of the workspace root with the literal
tmp/sa_uid_ts.db relative path (uid and ts are fresh strings). -/
def genUri (root uid ts : String) : String :=
  root ++ "/" ++ "tmp" ++ "/sa_" ++ uid ++ "_" ++ ts ++ ".db"

/-- Observable events of _connect: a connection attempt (global index),
the fixed time.sleep(1) executed after every failed attempt, and the
regeneration of a new location after three consecutive failures at a
session-scoped one. -/
inductive CEvent
  | attempt (i : Nat)
  | sleepOne
  | regenEv (uri : String)
deriving DecidableEq

/-- Result of _connect: a successful connection at the final location, the
raised ConnectionNotExistException for a non-session-scoped location
after exhausted retries, running past the fuel bound (the while loop is
still running), or the normal while-loop exit (unreachable). -/
inductive CResult
  | connected (uri : String)
  | connFailRaised
  | outOfFuel
  | loopExited
deriving DecidableEq

/-- vector_store.py _connect with max_retries = 3.  The engine is the
oracle ok (does global attempt i succeed); regen i is the fresh location
generated after attempt i exhausts the retry budget. -/
def connectLoop (ok : Nat → Bool) (regen : Nat → String) :
    Nat → Nat → Nat → String → CResult × List CEvent
  | 0, _, _, _ => (.outOfFuel, [])
  | fuel+1, i, rc, uri =>
    if 3 ≤ rc then (.loopExited, [])
    else if ok i then (.connected uri, [.attempt i])
    else if 3 ≤ rc + 1 then
      if sessionScoped uri then
        let r := connectLoop ok regen fuel (i+1) 0 (regen i)
        (r.1, .attempt i :: .sleepOne :: .regenEv (regen i) :: r.2)
      else (.connFailRaised, [.attempt i, .sleepOne])
    else
      let r := connectLoop ok regen fuel (i+1) (rc+1) uri
      (r.1, .attempt i :: .sleepOne :: r.2)

/-- Python json.dumps of a string-valued mapping; json.dumps of the empty
mapping is the two-character brace string. -/
def jsonDumps (d : List (String × String)) : String :=
  "\x7b" ++ String.intercalate ", "
    (d.map (fun kv => "\"" ++ kv.1 ++ "\": \"" ++ kv.2 ++ "\"")) ++ "\x7d"

/-- One stored row of the collection (schema of _setup_collection:
auto int64 id, text, metadata string, embedding vector). -/
structure Row where
  id : Nat
  text : String
  meta : String
  emb : List Int
deriving DecidableEq

/-- Engine-side state of the collection: the auto-id counter and the
stored rows. -/
structure VSState where
  nextId : Nat
  rows : List Row
deriving DecidableEq

/-- Outcome of one insert-and-flush attempt inside store_vectors: success,
the ConnectionNotExistException stale-connection signal, or any other
engine exception. -/
inductive StoreOutcome
  | okIns
  | stale
  | exc (msg : String)
deriving DecidableEq

/-- Observable engine events of store_vectors and search_vectors. -/
inductive VEvent
  | insertEv (texts metas : List String) (embs : List (List Int))
  | flushEv
  | reconnectEv
  | setupEv
  | searchEv (q : List Int) (k : Nat)
deriving DecidableEq

/-- Result of a Python call: a returned value, a raised exception, or a
call that never returns within the fuel bound (unbounded recursion). -/
inductive PyRes (α : Type)
  | ret (a : α)
  | raised (msg : String)
  | diverge
deriving DecidableEq

/-- Engine batch insert: appends one row per entry and assigns consecutive
auto-increment primary keys. -/
def insertRows (st : VSState) (texts metas : List String) (embs : List (List Int)) : VSState :=
  { nextId := st.nextId + texts.length,
    rows := st.rows ++
      (List.zip (List.range' st.nextId texts.length)
        (List.zip texts (List.zip metas embs))).map
        (fun x => ⟨x.1, x.2.1, x.2.2.1, x.2.2.2⟩) }

/-- vector_store.py store_vectors.  metadata = none is the Python None
default, replaced by one empty mapping per entry; each mapping is passed
through json.dumps; the entities are submitted as one batch insert
followed by a flush, and the primary keys are returned.  On the
stale-connection outcome the adapter reconnects, re-ensures the
collection, and re-enters itself recursively (the source line
return self.store_vectors(texts, embeddings, metadata)). -/
def store_vectors (outcome : Nat → StoreOutcome) :
    Nat → Nat → VSState → List String → List (List Int) →
    Option (List (List (String × String))) →
    PyRes (List Nat) × VSState × List VEvent
  | 0, _, st, _, _, _ => (.diverge, st, [])
  | fuel+1, k, st, texts, embs, metadata =>
    let md := metadata.getD (List.replicate texts.length [])
    let mdJson := md.map jsonDumps
    match outcome k with
    | .okIns =>
      (.ret (List.range' st.nextId texts.length),
       insertRows st texts mdJson embs,
       [.insertEv texts mdJson embs, .flushEv])
    | .stale =>
      let r := store_vectors outcome fuel (k+1) st texts embs (some md)
      (r.1, r.2.1, .reconnectEv :: .setupEv :: r.2.2)
    | .exc m => (.raised m, st, [])

/-- One raw hit delivered by the engine search call. -/
structure Hit where
  id : Nat
  text : String
  meta : String
  distance : Int
deriving DecidableEq

/-- Result dictionary built by search_vectors for each hit. -/
structure SearchResult where
  id : Nat
  text : String
  metadata : String
  distance : Int
deriving DecidableEq

/-- Outcome of one engine search attempt inside search_vectors. -/
inductive SearchOutcome
  | okHits (hits : List Hit)
  | stale
  | exc (msg : String)
deriving DecidableEq

/-- The dictionary comprehension of search_vectors. -/
def hitToResult (h : Hit) : SearchResult :=
  ⟨h.id, h.text, h.meta, h.distance⟩

/-- vector_store.py search_vectors, with the engine search modelled by an
outcome oracle per attempt (the engine index itself is out of scope).
Same recursive stale-connection handling as store_vectors. -/
def search_vectors (outcome : Nat → SearchOutcome) :
    Nat → Nat → List Int → Nat →
    PyRes (List SearchResult) × List VEvent
  | 0, _, _, _ => (.diverge, [])
  | fuel+1, k, q, topK =>
    match outcome k with
    | .okHits hits => (.ret (hits.map hitToResult), [.searchEv q topK])
    | .stale =>
      let r := search_vectors outcome fuel (k+1) q topK
      (r.1, .reconnectEv :: .setupEv :: r.2)
    | .exc m => (.raised m, [])

/-- Engine-side description of one collection: vector dimension of the
schema, stored rows, loaded flag and index flag. -/
structure CollInfo where
  dim : Nat
  rows : List Row
  loaded : Bool
  indexed : Bool
deriving DecidableEq

/-- Engine-side map from collection name to collection. -/
abbrev MilvusDB := String → Option CollInfo

/-- utility.has_collection. -/
def hasCollection (db : MilvusDB) (name : String) : Bool :=
  (db name).isSome

/-- utility.drop_collection: removes exactly the named collection. -/
def drop_collection (db : MilvusDB) (name : String) : MilvusDB :=
  fun n => if n = name then none else db n

/-- vector_store.py _setup_collection, given a live connection: when the
collection is absent it is created with the fixed schema (empty, with
the IVF-flat index) and loaded; when present it is only loaded. -/
def setup_collection (db : MilvusDB) (name : String) (dim : Nat) : MilvusDB :=
  if hasCollection db name then
    fun n => if n = name then (db n).map (fun c => { c with loaded := true }) else db n
  else
    fun n => if n = name then some ⟨dim, [], true, true⟩ else db n

/-- vector_store.py drop: when the collection is present it is dropped and
then _connect and _setup_collection run (reconnection assumed
successful); when absent the body is a no-op. -/
def drop (db : MilvusDB) (name : String) (dim : Nat) : MilvusDB :=
  if hasCollection db name then
    setup_collection (drop_collection db name) name dim
  else db

/-! ### agents.py: StudyAssistant -/

/-- A Python exception as seen by the orchestrator: the
ConnectionNotExistException stale signal, or any other exception, each
carrying its str() message. -/
inductive PyErr
  | stale (msg : String)
  | other (msg : String)
deriving DecidableEq

/-- Python str(e) of a caught exception. -/
def errStr : PyErr → String
  | .stale m => m
  | .other m => m

/-- One conversation turn appended by generate_response. -/
structure Turn where
  user : String
  assistant : String
deriving DecidableEq

/-- Python list slice l[-n:]. -/
def lastN {α : Type} (n : Nat) (l : List α) : List α :=
  l.drop (l.length - n)

/-- agents.py history string of generate_response: the join over
self.conversation_history[-5:]. -/
def formatHistory (hist : List Turn) : String :=
  String.intercalate "\n"
    ((lastN 5 hist).map
      (fun t => "Student: " ++ t.user ++ "\nAssistant: " ++ t.assistant))

/-- The messages list passed to the chat completion call of
generate_response. -/
def promptMessages (query context : String) (hist : List Turn) : List (String × String) :=
  [("system", "You are a helpful study assistant. Use the provided context to answer questions accurately and clearly."),
   ("system", "Study materials:\n" ++ context),
   ("system", "Previous conversation:\n" ++ formatHistory hist),
   ("user", query)]

/-- Outcomes of one attempt of generate_response: the result of
search_materials (list of retrieved texts, or an exception) and the
result of the chat completion call. -/
structure GRAttempt where
  searchRes : Except PyErr (List String)
  llmRes : Except PyErr String

/-- agents.py generate_response over a list of per-attempt outcomes (the
stale-connection handler reinitialises the store and re-enters the whole
call, consuming the next attempt).  Returns the Python result, the
conversation history after the call, and the messages lists sent to the
chat endpoint. -/
def generate_response :
    List GRAttempt → String → List Turn →
    PyRes String × List Turn × List (List (String × String))
  | [], _, hist => (.diverge, hist, [])
  | a :: rest, query, hist =>
    match a.searchRes with
    | .error (.stale _) => generate_response rest query hist
    | .error (.other m) => (.ret ("Error: " ++ m), hist, [])
    | .ok mats =>
      let context := String.intercalate "\n" mats
      let msgs := promptMessages query context hist
      match a.llmRes with
      | .error (.stale _) =>
        let r := generate_response rest query hist
        (r.1, r.2.1, msgs :: r.2.2)
      | .error (.other m) => (.ret ("Error: " ++ m), hist, [msgs])
      | .ok reply => (.ret reply, hist ++ [⟨query, reply⟩], [msgs])

/-- agents.py get_conversation_history: returns the history list. -/
def get_conversation_history (hist : List Turn) : List Turn :=
  hist

/-- A sequence of successful generate_response calls (query paired with
the reply produced by the chat endpoint), threading the conversation
history. -/
def runConversation (calls : List (String × String)) (hist : List Turn) : List Turn :=
  match calls with
  | [] => hist
  | c :: cs =>
    runConversation cs (generate_response [⟨.ok [], .ok c.2⟩] c.1 hist).2.1

/-- agents.py fenced-code-block stripping shared by generate_flashcards
and generate_quiz: when a json fence is present take the part after it
and cut at the next fence, otherwise the same with a bare fence,
otherwise keep the content; then strip whitespace. -/
def stripFence (content : String) : String :=
  if containsSub content "```json" then
    ((((content.splitOn "```json").getD 1 "").splitOn "```").headD "").trim
  else if containsSub content "```" then
    ((((content.splitOn "```").getD 1 "").splitOn "```").headD "").trim
  else content

/-- Flashcard dictionary shape of generate_flashcards. -/
structure Flashcard where
  question : String
  answer : String
deriving DecidableEq

/-- Quiz item dictionary shape of generate_quiz. -/
structure QuizItem where
  question : String
  options : List String
  correct_index : Nat
  explanation : String
deriving DecidableEq

/-- Result of a generation API: the value parsed by json.loads (returned
unvalidated by the source), or a placeholder list built in an except
clause. -/
inductive GenResult (α ρ : Type)
  | parsed (v : ρ)
  | placeholder (items : List α)

/-- agents.py generate_flashcards: json.loads is modelled by the oracle
parse (none is the json.JSONDecodeError case); the retrieval and chat
calls are outcome oracles.  Every exception, the stale-connection one
included, is caught by the generic except clause and becomes a
placeholder carrying the message. -/
def generate_flashcards {ρ : Type} (parse : String → Option ρ)
    (searchRes : Except PyErr (List String)) (llmRes : Except PyErr String) :
    GenResult Flashcard ρ :=
  match searchRes with
  | .error e => .placeholder [⟨"Error", "Error: " ++ errStr e⟩]
  | .ok _ =>
    match llmRes with
    | .error e => .placeholder [⟨"Error", "Error: " ++ errStr e⟩]
    | .ok content =>
      match parse (stripFence content) with
      | none => .placeholder [⟨"Error", "Could not generate flashcards."⟩]
      | some v => .parsed v

/-- agents.py generate_quiz, same structure as generate_flashcards; note
the placeholder options list of the source holds the single string
Error, and its correct_index is 0. -/
def generate_quiz {ρ : Type} (parse : String → Option ρ)
    (searchRes : Except PyErr (List String)) (llmRes : Except PyErr String) :
    GenResult QuizItem ρ :=
  match searchRes with
  | .error e => .placeholder [⟨"Error", ["Error"], 0, "Error: " ++ errStr e⟩]
  | .ok _ =>
    match llmRes with
    | .error e => .placeholder [⟨"Error", ["Error"], 0, "Error: " ++ errStr e⟩]
    | .ok content =>
      match parse (stripFence content) with
      | none => .placeholder [⟨"Error", ["Error"], 0, "Could not generate quiz."⟩]
      | some v => .parsed v

/-! ### Helper lemmas: chunk_text -/

/-- An element delivered by getLast? is a member of the list. -/
theorem getLast?_mem_of_eq {α : Type} {l : List α} {a : α}
    (h : l.getLast? = some a) : a ∈ l := by
  obtain ⟨hne, rfl⟩ := List.mem_getLast?_eq_getLast (x := a) (l := l) h
  exact List.getLast_mem hne

/-- A found rfind position lies in the searched window. -/
theorem rfind_bounds {t needle : List Char} {s e p : Nat}
    (h : rfind t needle s e = some p) :
    s ≤ p ∧ p + needle.length ≤ e := by
  unfold rfind at h
  have hmem := getLast?_mem_of_eq h
  rw [List.mem_filter] at hmem
  obtain ⟨hr, hc⟩ := hmem
  rw [List.mem_range'_1] at hr
  rw [Bool.and_eq_true] at hc
  exact ⟨hr.1, of_decide_eq_true hc.1⟩

/-- A found boundary position lies in the window, so the moved end stays
inside it. -/
theorem boundaryPos_bounds {t : List Char} {s e p : Nat}
    (h : boundaryPos t s e = some p) : s ≤ p ∧ p + 1 ≤ e := by
  unfold boundaryPos at h
  split at h
  next q hq => cases h; have hb := rfind_bounds hq; simp at hb; omega
  next =>
    split at h
    next q hq => cases h; have hb := rfind_bounds hq; simp at hb; omega
    next =>
      split at h
      next q hq => cases h; have hb := rfind_bounds hq; simp at hb; omega
      next => have hb := rfind_bounds h; simp at hb; omega

/-- The window end strictly advances, stays inside the text, and is at
most chunk_size past the start. -/
theorem chunkEnd_bounds {t : List Char} {cs s : Nat} (hcs : 1 ≤ cs)
    (hs : s < t.length) :
    s < chunkEnd t cs s ∧ chunkEnd t cs s ≤ t.length ∧ chunkEnd t cs s ≤ s + cs := by
  unfold chunkEnd
  by_cases hlt : min (s + cs) t.length < t.length
  · rw [if_pos hlt]
    cases hb : boundaryPos t s (min (s + cs) t.length) with
    | some p =>
      have hp := boundaryPos_bounds hb
      show s < p + 1 ∧ p + 1 ≤ t.length ∧ p + 1 ≤ s + cs
      omega
    | none =>
      show s < min (s + cs) t.length ∧ min (s + cs) t.length ≤ t.length
        ∧ min (s + cs) t.length ≤ s + cs
      omega
  · rw [if_neg hlt]
    omega

/-- The next start strictly advances and does not pass the window end. -/
theorem nextStart_bounds (ov : Nat) {s e : Nat} (hse : s < e) :
    s < nextStart ov s e ∧ nextStart ov s e ≤ e ∧ e ≤ nextStart ov s e + ov := by
  unfold nextStart
  split <;> omega

/-- Fuel covering the remaining text suffices for the chunk loop, since
the start index strictly advances each iteration. -/
theorem chunkAux_isSome (t : List Char) (cs ov : Nat) (hcs : 1 ≤ cs) :
    ∀ fuel s, t.length ≤ s + fuel → (chunkAux t cs ov fuel s).isSome = true := by
  intro fuel
  induction fuel with
  | zero =>
    intro s hs
    simp only [chunkAux]
    rw [if_neg (by omega)]
    rfl
  | succ n ih =>
    intro s hs
    simp only [chunkAux]
    by_cases h : s < t.length
    · rw [if_pos h]
      have hb := chunkEnd_bounds hcs h
      have hns := nextStart_bounds ov hb.1
      have hrec := ih (nextStart ov s (chunkEnd t cs s)) (by omega)
      cases hc : chunkAux t cs ov n (nextStart ov s (chunkEnd t cs s)) with
      | some rest => simp
      | none => rw [hc] at hrec; exact absurd hrec (by simp)
    · rw [if_neg h]; rfl

/-- Structural invariant of the produced chunk intervals: every interval
is nonempty, inside the text and at most chunk_size wide; the intervals
cover the text from the initial start on; adjacent intervals are in
start order and overlap by at most the given overlap. -/
theorem chunkAux_spec (t : List Char) (cs ov : Nat) (hcs : 1 ≤ cs) :
    ∀ fuel s ivs, chunkAux t cs ov fuel s = some ivs →
      (∀ p ∈ ivs, s ≤ p.1 ∧ p.1 < p.2 ∧ p.2 ≤ t.length ∧ p.2 - p.1 ≤ cs)
      ∧ (∀ i, s ≤ i → i < t.length → ∃ p ∈ ivs, p.1 ≤ i ∧ i < p.2)
      ∧ List.Chain' (fun a b => a.2 ≤ b.1 + ov ∧ a.1 < b.1) ivs := by
  intro fuel
  induction fuel with
  | zero =>
    intro s ivs h
    simp only [chunkAux] at h
    split at h
    · exact absurd h (by simp)
    · next hns =>
      cases h
      refine ⟨by simp, ?_, by simp⟩
      intro i hsi hilen
      omega
  | succ n ih =>
    intro s ivs h
    simp only [chunkAux] at h
    split at h
    · next hslen =>
      cases hc : chunkAux t cs ov n (nextStart ov s (chunkEnd t cs s)) with
      | none => rw [hc] at h; cases h
      | some rest =>
        rw [hc] at h
        cases h
        obtain ⟨ihmem, ihcov, ihchain⟩ := ih _ rest hc
        have hb := chunkEnd_bounds hcs hslen
        have hns := nextStart_bounds ov hb.1
        refine ⟨?_, ?_, ?_⟩
        · intro p hp
          rcases List.mem_cons.mp hp with hp | hp
          · subst hp
            dsimp only
            omega
          · have := ihmem p hp
            omega
        · intro i hsi hilen
          by_cases hie : i < chunkEnd t cs s
          · exact ⟨(s, chunkEnd t cs s), List.mem_cons_self _ _, hsi, hie⟩
          · obtain ⟨p, hp, h1, h2⟩ := ihcov i (by omega) hilen
            exact ⟨p, List.mem_cons_of_mem _ hp, h1, h2⟩
        · rw [List.chain'_cons']
          refine ⟨?_, ihchain⟩
          intro y hy
          have hymem := ihmem y (List.mem_of_mem_head? hy)
          dsimp only
          omega
    · next hns =>
      cases h
      refine ⟨by simp, ?_, by simp⟩
      intro i hsi hilen
      omega

/-! ### Claim theorems: chunk_text -/

/-- C10: chunk_text terminates for every text whenever chunk_size ≥ 1
(fuel t.length always suffices, overlap ≥ chunk_size included), returns
the empty list on empty text, and every returned chunk is nonempty. -/
theorem c10_chunk_termination (t : List Char) (cs ov : Nat) (hcs : 1 ≤ cs) :
    ∃ l, chunk_text t cs ov = some l
      ∧ (t = [] → l = [])
      ∧ ∀ c ∈ l, c ≠ [] := by
  have hsome := chunkAux_isSome t cs ov hcs t.length 0 (by omega)
  obtain ⟨ivs, hivs⟩ := Option.isSome_iff_exists.mp hsome
  refine ⟨ivs.map (sliceChunk t), ?_, ?_, ?_⟩
  · unfold chunk_text; rw [hivs]; rfl
  · intro ht
    subst ht
    simp only [List.length_nil, chunkAux] at hivs
    rw [if_neg (by omega)] at hivs
    cases hivs
    rfl
  · intro c hc
    obtain ⟨p, hp, rfl⟩ := List.mem_map.mp hc
    have hmem := (chunkAux_spec t cs ov hcs t.length 0 ivs hivs).1 p hp
    unfold sliceChunk
    intro hnil
    have hlen : ((t.drop p.1).take (p.2 - p.1)).length = 0 := by rw [hnil]; rfl
    rw [List.length_take, List.length_drop] at hlen
    omega

/-- Witness for C10 at a concrete text, with overlap larger than
chunk_size. -/
theorem c10_chunk_termination_wit :
    (1 : Nat) ≤ 2 ∧
    ∃ l, chunk_text ['a', '.', 'b'] 2 5 = some l
      ∧ (['a', '.', 'b'] = ([] : List Char) → l = [])
      ∧ ∀ c ∈ l, c ≠ ([] : List Char) :=
  ⟨by decide, c10_chunk_termination ['a', '.', 'b'] 2 5 (by decide)⟩

/-- C5: for overlap < chunk_size the chunk intervals cover the whole
text (every character index lies in some chunk interval, the chunks
being the corresponding slices taken in start order), adjacent chunks
overlap by at most overlap characters, and no chunk exceeds chunk_size
characters. -/
theorem c5_chunk_coverage (t : List Char) (cs ov : Nat) (hov : ov < cs) :
    ∃ ivs, chunkAux t cs ov t.length 0 = some ivs
      ∧ chunk_text t cs ov = some (ivs.map (sliceChunk t))
      ∧ (∀ i, i < t.length → ∃ p ∈ ivs, p.1 ≤ i ∧ i < p.2)
      ∧ List.Chain' (fun a b => a.2 ≤ b.1 + ov ∧ a.1 < b.1) ivs
      ∧ (∀ c ∈ ivs.map (sliceChunk t), c.length ≤ cs) := by
  have hcs : 1 ≤ cs := by omega
  have hsome := chunkAux_isSome t cs ov hcs t.length 0 (by omega)
  obtain ⟨ivs, hivs⟩ := Option.isSome_iff_exists.mp hsome
  obtain ⟨hmem, hcov, hchain⟩ := chunkAux_spec t cs ov hcs t.length 0 ivs hivs
  refine ⟨ivs, hivs, ?_, ?_, hchain, ?_⟩
  · unfold chunk_text; rw [hivs]; rfl
  · intro i hi
    exact hcov i (Nat.zero_le i) hi
  · intro c hc
    obtain ⟨p, hp, rfl⟩ := List.mem_map.mp hc
    have := hmem p hp
    unfold sliceChunk
    rw [List.length_take, List.length_drop]
    omega

/-- Witness for C5 at a concrete text containing a boundary character. -/
theorem c5_chunk_coverage_wit :
    (1 : Nat) < 2 ∧
    ∃ ivs, chunkAux ['a', '.', 'b'] 2 1 (['a', '.', 'b'] : List Char).length 0 = some ivs
      ∧ chunk_text ['a', '.', 'b'] 2 1 = some (ivs.map (sliceChunk ['a', '.', 'b'])) :=
  ⟨by decide, (c5_chunk_coverage ['a', '.', 'b'] 2 1 (by decide)).elim
    (fun ivs h => ⟨ivs, h.1, h.2.1⟩)⟩

/-! ### Helper lemmas: vector store -/

/-- One-step unfolding of the _connect loop. -/
theorem connectLoop_succ (ok : Nat → Bool) (regen : Nat → String)
    (fuel i rc : Nat) (uri : String) :
    connectLoop ok regen (fuel + 1) i rc uri =
      if 3 ≤ rc then (.loopExited, [])
      else if ok i then (.connected uri, [.attempt i])
      else if 3 ≤ rc + 1 then
        if sessionScoped uri then
          ((connectLoop ok regen fuel (i+1) 0 (regen i)).1,
           .attempt i :: .sleepOne :: .regenEv (regen i) ::
             (connectLoop ok regen fuel (i+1) 0 (regen i)).2)
        else (.connFailRaised, [.attempt i, .sleepOne])
      else
        ((connectLoop ok regen fuel (i+1) (rc+1) uri).1,
         .attempt i :: .sleepOne :: (connectLoop ok regen fuel (i+1) (rc+1) uri).2) :=
  rfl

/-- Every location regenerated by _connect contains the tmp path segment
and is therefore session-scoped. -/
theorem sessionScoped_genUri (root uid ts : String) :
    sessionScoped (genUri root uid ts) = true := by
  unfold sessionScoped containsSub
  rw [Bool.or_eq_true]
  left
  rw [decide_eq_true_iff]
  unfold genUri
  refine ⟨root.toList ++ "/".toList, ("/sa_" ++ uid ++ "_" ++ ts ++ ".db").toList, ?_⟩
  simp [String.toList]

/-! ### Claim theorems: vector store -/

/-- C7: for a non-session-scoped location with every connection attempt
failing, _connect makes exactly three attempts, sleeps the fixed one
second after each failure, then raises the connection-failure error,
without regenerating a location. -/
theorem c7_nonlocal_three_attempts (ok : Nat → Bool) (regen : Nat → String)
    (uri : String) (fuel : Nat)
    (hfail : ∀ i, ok i = false) (hns : sessionScoped uri = false) :
    connectLoop ok regen (fuel + 3) 0 0 uri =
      (.connFailRaised,
       [.attempt 0, .sleepOne, .attempt 1, .sleepOne, .attempt 2, .sleepOne]) := by
  have h : fuel + 3 = fuel + 1 + 1 + 1 := by omega
  rw [h]
  simp [connectLoop_succ, hfail, hns]

/-- Witness for C7: all attempts fail at a non-session-scoped location. -/
theorem c7_nonlocal_three_attempts_wit :
    connectLoop (fun _ => false) (fun _ => "x") (0 + 3) 0 0 "server.db" =
      (.connFailRaised,
       [.attempt 0, .sleepOne, .attempt 1, .sleepOne, .attempt 2, .sleepOne]) :=
  c7_nonlocal_three_attempts (fun _ => false) (fun _ => "x") "server.db" 0
    (fun _ => rfl) (by decide)

/-- C2 counterexample: with a session-scoped location, every attempt
failing until the seventh, _connect regenerates a location a second time
after the three attempts at the first regenerated location fail — then
connects — instead of terminating with a fatal configuration error. -/
theorem c2_regen_cex :
    connectLoop (fun i => i == 6) (fun _ => "tmp/r.db") 10 0 0 "tmp/a.db" =
      (.connected "tmp/r.db",
       [.attempt 0, .sleepOne, .attempt 1, .sleepOne, .attempt 2, .sleepOne,
        .regenEv "tmp/r.db", .attempt 3, .sleepOne, .attempt 4, .sleepOne,
        .attempt 5, .sleepOne, .regenEv "tmp/r.db", .attempt 6]) := by
  decide

/-- C2 amended: the location-regeneration fallback is unbounded.  A
regenerated location always contains the tmp segment and is itself
session-scoped, so after every three consecutive failures at a
session-scoped location the retry counter is reset and a new location is
generated again; when every attempt fails the loop never terminates
within any fuel bound, and in particular never raises the fatal
configuration error. -/
theorem c2_unbounded_regen (ok : Nat → Bool) (regen : Nat → String)
    (hfail : ∀ i, ok i = false)
    (hreg : ∀ i, sessionScoped (regen i) = true) :
    (∀ root uid ts, sessionScoped (genUri root uid ts) = true)
    ∧ ∀ fuel i rc uri, rc < 3 → sessionScoped uri = true →
        (connectLoop ok regen fuel i rc uri).1 = .outOfFuel := by
  refine ⟨sessionScoped_genUri, ?_⟩
  intro fuel
  induction fuel with
  | zero =>
    intro i rc uri hrc hss
    rfl
  | succ n ih =>
    intro i rc uri hrc hss
    rw [connectLoop_succ]
    rw [if_neg (by omega), hfail i]
    simp only [Bool.false_eq_true, if_false]
    by_cases h3 : 3 ≤ rc + 1
    · rw [if_pos h3, hss]
      simp only [if_true]
      exact ih (i+1) 0 (regen i) (by omega) (hreg i)
    · rw [if_neg h3]
      exact ih (i+1) (rc+1) uri (by omega) hss

/-- Witness for C2 amended: all attempts failing at a session-scoped
location exhausts any fuel bound. -/
theorem c2_unbounded_regen_wit :
    (connectLoop (fun _ => false) (fun _ => genUri "w" "u" "t") 9 0 0 "tmp/a.db").1
      = .outOfFuel :=
  (c2_unbounded_regen (fun _ => false) (fun _ => genUri "w" "u" "t")
    (fun _ => rfl) (fun _ => sessionScoped_genUri "w" "u" "t")).2
    9 0 0 "tmp/a.db" (by decide) (by decide)

/-- C1 counterexample: a store_vectors call whose first two attempts both
report the stale-connection condition and whose third succeeds returns
the inserted ids — the second consecutive staleness triggers a further
retry instead of propagating as a fatal error. -/
theorem c1_stale_retry_cex :
    store_vectors (fun k => if k < 2 then .stale else .okIns) 5 0 ⟨0, []⟩
        ["a"] [[1]] none =
      (.ret [0], ⟨1, [⟨0, "a", "\x7b\x7d", [1]⟩]⟩,
       [.reconnectEv, .setupEv, .reconnectEv, .setupEv,
        .insertEv ["a"] ["\x7b\x7d"] [[1]], .flushEv]) := by
  decide

/-- C1 amended: on every stale-connection report store_vectors and
search_vectors reconnect, re-ensure the collection, and re-enter
themselves recursively with no bound; when the engine reports staleness
on every attempt the call never returns within any fuel bound
(unbounded recursion), rather than surfacing a fatal error after the
second occurrence. -/
theorem c1_unbounded_stale_retry (so : Nat → StoreOutcome) (qo : Nat → SearchOutcome)
    (hs : ∀ k, so k = .stale) (hq : ∀ k, qo k = .stale) :
    ∀ fuel k st texts embs md q topK,
      (store_vectors so fuel k st texts embs md).1 = .diverge
      ∧ (search_vectors qo fuel k q topK).1 = .diverge := by
  intro fuel
  induction fuel with
  | zero =>
    intro k st texts embs md q topK
    exact ⟨rfl, rfl⟩
  | succ n ih =>
    intro k st texts embs md q topK
    constructor
    · simp only [store_vectors, hs k]
      exact (ih (k+1) st texts embs
        (some ((md.getD (List.replicate texts.length [])))) q topK).1
    · simp only [search_vectors, hq k]
      exact (ih (k+1) st texts embs md q topK).2

/-- Witness for C1 amended: a schedule that is stale on every attempt. -/
theorem c1_unbounded_stale_retry_wit :
    (store_vectors (fun _ => .stale) 4 0 ⟨0, []⟩ ["a"] [[1]] none).1 = PyRes.diverge
    ∧ (search_vectors (fun _ => .stale) 4 0 [1] 5).1 = PyRes.diverge :=
  c1_unbounded_stale_retry (fun _ => .stale) (fun _ => .stale)
    (fun _ => rfl) (fun _ => rfl) 4 0 ⟨0, []⟩ ["a"] [[1]] none [1] 5

/-- C8: with equal-length inputs and a successful engine insert,
store_vectors serializes each metadata mapping with json.dumps (one
empty mapping per entry when metadata is None), submits all entries as
one batch insert followed by a flush before returning, and returns
exactly one engine-assigned id per entry, consecutive in insertion
order. -/
theorem c8_store_batch (outcome : Nat → StoreOutcome) (st : VSState)
    (texts : List String) (embs : List (List Int))
    (metadata : Option (List (List (String × String)))) (fuel : Nat)
    (hok : outcome 0 = .okIns)
    (_hlen : embs.length = texts.length)
    (hmd : ∀ m ∈ metadata, m.length = texts.length) :
    store_vectors outcome (fuel + 1) 0 st texts embs metadata =
      (.ret (List.range' st.nextId texts.length),
       insertRows st texts
         ((metadata.getD (List.replicate texts.length [])).map jsonDumps) embs,
       [.insertEv texts
          ((metadata.getD (List.replicate texts.length [])).map jsonDumps) embs,
        .flushEv])
    ∧ (List.range' st.nextId texts.length).length = texts.length
    ∧ (metadata = none →
        (metadata.getD (List.replicate texts.length [])).map jsonDumps
          = List.replicate texts.length (jsonDumps [])) := by
  refine ⟨?_, ?_, ?_⟩
  · simp only [store_vectors, hok]
  · exact List.length_range' ..
  · intro hnone
    subst hnone
    simp [List.map_replicate]

/-- Witness for C8 at a concrete two-entry batch with default metadata. -/
theorem c8_store_batch_wit :
    (store_vectors (fun _ => StoreOutcome.okIns) (0 + 1) 0 ⟨5, []⟩
        ["a", "b"] [[1], [2]] none).1 = .ret [5, 6] := by
  have h := c8_store_batch (fun _ => StoreOutcome.okIns) ⟨5, []⟩
    ["a", "b"] [[1], [2]] none 0 rfl rfl (by simp)
  rw [h.1]
  rfl

/-- C4 counterexample: drop on an engine state without the named
collection returns successfully as a no-op; afterwards the collection
still does not exist, so it is not an empty loaded collection of the
original schema. -/
theorem c4_drop_absent_cex :
    drop (fun _ => none) "study_materials" 1536 = (fun _ => none)
    ∧ hasCollection (drop (fun _ => none) "study_materials" 1536) "study_materials"
        = false :=
  ⟨rfl, rfl⟩

/-- C4 amended: when the named collection exists beforehand, a successful
drop leaves it existing, empty, loaded and indexed with the original
schema dimension, and leaves every other collection untouched; when it
does not exist beforehand, drop is a no-op and the collection still does
not exist. -/
theorem c4_drop_state (db : MilvusDB) (name : String) (dim : Nat) :
    (hasCollection db name = true →
      drop db name dim name = some ⟨dim, [], true, true⟩
      ∧ hasCollection (drop db name dim) name = true
      ∧ ∀ other, other ≠ name → drop db name dim other = db other)
    ∧ (hasCollection db name = false → drop db name dim = db) := by
  constructor
  · intro h
    have hd : drop db name dim = setup_collection (drop_collection db name) name dim := by
      unfold drop
      rw [h]
      simp
    have hdc : hasCollection (drop_collection db name) name = false := by
      unfold hasCollection drop_collection
      simp
    have hsetup : setup_collection (drop_collection db name) name dim
        = fun n => if n = name then some ⟨dim, [], true, true⟩
            else drop_collection db name n := by
      unfold setup_collection
      rw [hdc]
      simp
    refine ⟨?_, ?_, ?_⟩
    · rw [hd, hsetup]
      simp
    · rw [hd, hsetup]
      unfold hasCollection
      simp
    · intro other hne
      rw [hd, hsetup]
      simp only [if_neg hne]
      unfold drop_collection
      rw [if_neg hne]
  · intro h
    unfold drop
    rw [h]
    simp

/-- Witness for C4 amended, at a concrete engine holding the collection
and at one not holding it. -/
theorem c4_drop_state_wit :
    drop (fun n => if n = "study_materials" then some ⟨1536, [⟨0, "a", "m", [1]⟩], true, true⟩ else none)
        "study_materials" 1536 "study_materials" = some ⟨1536, [], true, true⟩
    ∧ drop (fun _ => none) "c" 7 = (fun _ => none) := by
  constructor
  · exact ((c4_drop_state
      (fun n => if n = "study_materials" then some ⟨1536, [⟨0, "a", "m", [1]⟩], true, true⟩ else none)
      "study_materials" 1536).1 (by rfl)).1
  · exact (c4_drop_state (fun _ => none) "c" 7).2 rfl

/-! ### Helper lemmas: orchestrator -/

/-- Python l[-n:] is idempotent. -/
theorem lastN_lastN {α : Type} (n : Nat) (l : List α) :
    lastN n (lastN n l) = lastN n l := by
  unfold lastN
  rw [List.length_drop]
  have h : l.length - (l.length - n) - n = 0 := by omega
  rw [h, List.drop_zero]

/-- A single successful generate_response call appends exactly one turn. -/
theorem generate_response_ok (query reply : String) (hist : List Turn) :
    generate_response [⟨.ok [], .ok reply⟩] query hist =
      (.ret reply, hist ++ [⟨query, reply⟩],
       [promptMessages query (String.intercalate "\n" []) hist]) :=
  rfl

/-- Running a conversation appends one turn per successful call, in call
order. -/
theorem runConversation_spec (calls : List (String × String)) :
    ∀ hist, runConversation calls hist
      = hist ++ calls.map (fun c => Turn.mk c.1 c.2) := by
  induction calls with
  | nil =>
    intro hist
    simp [runConversation]
  | cons c cs ih =>
    intro hist
    show runConversation cs (generate_response [⟨.ok [], .ok c.2⟩] c.1 hist).2.1
      = hist ++ (c :: cs).map (fun c => Turn.mk c.1 c.2)
    rw [generate_response_ok]
    show runConversation cs (hist ++ [⟨c.1, c.2⟩])
      = hist ++ (c :: cs).map (fun c => Turn.mk c.1 c.2)
    rw [ih]
    simp

/-! ### Claim theorems: orchestrator -/

/-- C6: after M successful generate_response calls the conversation
history returned by get_conversation_history holds exactly M turns, one
per call in call order, and the prompt of the next call depends only on
the last five turns of the history. -/
theorem c6_history_policy :
    (∀ (calls : List (String × String)) (hist : List Turn),
        get_conversation_history (runConversation calls hist)
          = hist ++ calls.map (fun c => Turn.mk c.1 c.2))
    ∧ (∀ calls : List (String × String),
        (get_conversation_history (runConversation calls [])).length = calls.length)
    ∧ (∀ query context (hist : List Turn),
        promptMessages query context hist
          = promptMessages query context (lastN 5 hist)) := by
  refine ⟨?_, ?_, ?_⟩
  · intro calls hist
    exact runConversation_spec calls hist
  · intro calls
    rw [show get_conversation_history (runConversation calls []) = runConversation calls [] from rfl,
        runConversation_spec calls []]
    simp
  · intro query context hist
    unfold promptMessages formatHistory
    rw [lastN_lastN]

/-- C9: when generate_response fails other than by the stale-connection
condition — search_materials raising a non-stale exception, or the chat
completion call raising a non-stale exception — the call returns the
string Error: followed by the message, and the conversation history is
unchanged: no turn is appended. -/
theorem c9_error_no_append (query m : String) (hist : List Turn)
    (l : Except PyErr String) (mats : List String) :
    generate_response [⟨.error (.other m), l⟩] query hist
      = (.ret ("Error: " ++ m), hist, [])
    ∧ generate_response [⟨.ok mats, .error (.other m)⟩] query hist
      = (.ret ("Error: " ++ m), hist,
         [promptMessages query (String.intercalate "\n" mats) hist]) :=
  ⟨rfl, rfl⟩

/-- C3 counterexample: on an LLM response that is not valid JSON,
generate_quiz returns its placeholder whose options list holds one
string, not four — the quiz placeholder does not have the declared item
shape with options of 4 strings. -/
theorem c3_quiz_placeholder_cex :
    generate_quiz (fun _ : String => (none : Option Unit)) (.ok []) (.ok "not json")
      = .placeholder [⟨"Error", ["Error"], 0, "Could not generate quiz."⟩]
    ∧ (["Error"] : List String).length ≠ 4 :=
  ⟨rfl, by decide⟩

/-- C3 amended: generate_flashcards and generate_quiz never propagate an
exception: every outcome is either the parsed JSON value or a
single-element placeholder; the flashcard placeholder has the question
and answer shape as claimed, while the quiz placeholder carries the
single-element options list holding the string Error (not 4 strings)
and correct_index 0; in particular a parse failure after fence
stripping yields the fixed parse-failure placeholders. -/
theorem c3_placeholder_policy {ρ : Type} (parse : String → Option ρ)
    (s : Except PyErr (List String)) (l : Except PyErr String) :
    ((∃ v, generate_flashcards parse s l = .parsed v)
      ∨ (∃ a, generate_flashcards parse s l = .placeholder [⟨"Error", a⟩]))
    ∧ ((∃ v, generate_quiz parse s l = .parsed v)
      ∨ (∃ e, generate_quiz parse s l
          = .placeholder [⟨"Error", ["Error"], 0, e⟩]))
    ∧ (∀ mats content, s = .ok mats → l = .ok content →
        parse (stripFence content) = none →
        generate_flashcards parse s l
          = .placeholder [⟨"Error", "Could not generate flashcards."⟩]
        ∧ generate_quiz parse s l
          = .placeholder [⟨"Error", ["Error"], 0, "Could not generate quiz."⟩]) := by
  refine ⟨?_, ?_, ?_⟩
  · unfold generate_flashcards
    cases s with
    | error e => exact Or.inr ⟨"Error: " ++ errStr e, rfl⟩
    | ok mats =>
      cases l with
      | error e => exact Or.inr ⟨"Error: " ++ errStr e, rfl⟩
      | ok content =>
        cases hp : parse (stripFence content) with
        | none => exact Or.inr ⟨"Could not generate flashcards.", by simp [hp]⟩
        | some v => exact Or.inl ⟨v, by simp [hp]⟩
  · unfold generate_quiz
    cases s with
    | error e => exact Or.inr ⟨"Error: " ++ errStr e, rfl⟩
    | ok mats =>
      cases l with
      | error e => exact Or.inr ⟨"Error: " ++ errStr e, rfl⟩
      | ok content =>
        cases hp : parse (stripFence content) with
        | none => exact Or.inr ⟨"Could not generate quiz.", by simp [hp]⟩
        | some v => exact Or.inl ⟨v, by simp [hp]⟩
  · intro mats content hs hl hp
    subst hs
    subst hl
    constructor
    · unfold generate_flashcards
      simp [hp]
    · unfold generate_quiz
      simp [hp]

/-- Witness for C3 amended at a concrete failing parse. -/
theorem c3_placeholder_policy_wit :
    generate_flashcards (fun _ : String => (none : Option Unit)) (.ok ["m"]) (.ok "x")
      = .placeholder [⟨"Error", "Could not generate flashcards."⟩]
    ∧ generate_quiz (fun _ : String => (none : Option Unit)) (.ok ["m"]) (.ok "x")
      = .placeholder [⟨"Error", ["Error"], 0, "Could not generate quiz."⟩] :=
  (c3_placeholder_policy (fun _ : String => (none : Option Unit))
    (.ok ["m"]) (.ok "x")).2.2 ["m"] "x" rfl rfl rfl

end StudyAssistant
